import Mathlib

/-!
Verification of the persistent-volume subsystem of the sandbox platform.

The Go sources are shallowly embedded: pure helper functions from the Go
standard library (`strings`, `net/url`, `path/filepath`) are reproduced as
executable Lean functions, handlers and pipelines become pure functions over
explicit state, and the external collaborators (object store, subprocesses,
the embedded filesystem library) are modelled as oracles or as a small
map-based filesystem following the contracts the spec assigns to them.
-/

/-! ## Go standard-library string primitives

All primitives are built by structural recursion on character lists so that
concrete instances evaluate inside the kernel. -/

/-- Whether `pre` is a prefix of `s`, on character lists. -/
def chIsPre : List Char → List Char → Bool
  | [], _ => true
  | _ :: _, [] => false
  | p :: ps, c :: cs => p == c && chIsPre ps cs

/-- Strip `pre` off the front of `l`, if it is a prefix. -/
def stripPre : List Char → List Char → Option (List Char)
  | [], l => some l
  | _ :: _, [] => none
  | p :: ps, c :: cs => if p == c then stripPre ps cs else none

/-- Fuel-driven worker for splitting on a non-empty separator; with
`fuel ≥ length of the input` it computes the list of separated pieces. -/
def chSplitGo (sep : List Char) : Nat → List Char → List (List Char)
  | _, [] => [[]]
  | 0, l => [l]
  | n + 1, c :: cs =>
    match sep, stripPre sep (c :: cs) with
    | _ :: _, some rest => [] :: chSplitGo sep n rest
    | _, _ =>
      match chSplitGo sep n cs with
      | [] => [[c]]
      | h :: t => (c :: h) :: t

/-- `strings.Split` on character lists (empty separator splits nowhere;
every use in the embedded code passes a non-empty separator). -/
def chSplit (s sep : List Char) : List (List Char) :=
  chSplitGo sep s.length s

/-- Interleave a separator between pieces (for the tail of `SplitN`). -/
def chIntercalate (sep : List Char) : List (List Char) → List Char
  | [] => []
  | [x] => x
  | x :: rest => x ++ sep ++ chIntercalate sep rest

/-- `strings.HasPrefix s pre`. -/
def goHasPrefix (s pre : String) : Bool :=
  chIsPre pre.data s.data

/-- `strings.Contains s sub` for a non-empty `sub` (every use in the
embedded code passes a non-empty separator). -/
def goContains (s sub : String) : Bool :=
  match chSplit s.data sub.data with
  | [] => false
  | [_] => false
  | _ :: _ :: _ => true

/-- `strings.SplitN s sep 2`: at most two pieces, the second piece keeps
any later occurrences of `sep`. -/
def goSplitN2 (s sep : String) : List String :=
  match chSplit s.data sep.data with
  | [] => [s]
  | [x] => [String.mk x]
  | x :: rest => [String.mk x, String.mk (chIntercalate sep.data rest)]

/-- Value of a hexadecimal digit character, if it is one. -/
def hexDigitVal (c : Char) : Option Nat :=
  if '0' ≤ c ∧ c ≤ '9' then some (c.toNat - '0'.toNat)
  else if 'a' ≤ c ∧ c ≤ 'f' then some (c.toNat - 'a'.toNat + 10)
  else if 'A' ≤ c ∧ c ≤ 'F' then some (c.toNat - 'A'.toNat + 10)
  else none

/-- Percent-decoding as in Go `net/url.unescape`: each `%XY` becomes the
byte `0xXY`; a `%` not followed by two hex digits is an error.  With
`plus = true` (query mode) a bare `+` decodes to a space. -/
def percentDecode (plus : Bool) : List Char → Option (List Char)
  | [] => some []
  | '%' :: a :: b :: rest =>
    match hexDigitVal a, hexDigitVal b with
    | some x, some y => (percentDecode plus rest).map (fun l => Char.ofNat (16 * x + y) :: l)
    | _, _ => none
  | ['%', _] => none
  | ['%'] => none
  | c :: rest =>
    (percentDecode plus rest).map (fun l => (if plus ∧ c = '+' then ' ' else c) :: l)

/-- `url.PathUnescape`. -/
def pathUnescape (s : String) : Option String :=
  (percentDecode false s.data).map fun l => String.mk l

/-- `url.QueryUnescape`. -/
def queryUnescape (s : String) : Option String :=
  (percentDecode true s.data).map fun l => String.mk l

/-- One `key[=value]` segment of a query string, as handled by the loop in
Go `net/url.parseQuery`: `none` is a parse error, `some none` a skipped
empty segment, `some (some kv)` a parsed pair. -/
def parseQuerySeg (seg : String) : Option (Option (String × String)) :=
  if goContains seg ";" then none
  else if seg = "" then some none
  else
    let parts := goSplitN2 seg "="
    let rawKey := parts.headD ""
    let rawVal := match parts with | [_, v] => v | _ => ""
    match queryUnescape rawKey, queryUnescape rawVal with
    | some k, some v => some (some (k, v))
    | _, _ => none

/-- Folds the segments of a query; any segment error poisons the whole
parse (the proxy only uses the parse when Go's `err == nil`). -/
def parseQuerySegs : List String → Option (List (String × String))
  | [] => some []
  | seg :: rest =>
    match parseQuerySeg seg with
    | none => none
    | some none => parseQuerySegs rest
    | some (some kv) => (parseQuerySegs rest).map (fun l => kv :: l)

/-- `url.ParseQuery`, restricted to the way the proxy consumes it: `none`
when Go would return a non-nil error, otherwise the ordered key/value
pairs. -/
def parseQuery (query : String) : Option (List (String × String)) :=
  if query = "" then some []
  else parseQuerySegs ((chSplit query.data ['&']).map String.mk)

/-- `url.Values.Get`: first value recorded for the key, `""` if absent. -/
def getQ (values : List (String × String)) (key : String) : String :=
  match values.find? (fun kv => kv.1 == key) with
  | some kv => kv.2
  | none => ""

/-- Stack step of the `path.Clean` algorithm: `acc` holds the output
components in reverse; `".."` pops unless the path is relative and the top
is itself a `".."` (or the stack is empty). -/
def cleanComps (rooted : Bool) (acc : List String) : List String → List String
  | [] => acc
  | c :: rest =>
    if c = "" ∨ c = "." then cleanComps rooted acc rest
    else if c = ".." then
      match acc with
      | [] => cleanComps rooted (if rooted then [] else [".."]) rest
      | h :: t =>
        if h = ".." ∧ ¬rooted then cleanComps rooted (".." :: h :: t) rest
        else cleanComps rooted t rest
    else cleanComps rooted (c :: acc) rest

/-- `path/filepath.Clean` on Unix, in its standard stack formulation. -/
def goClean (p : String) : String :=
  if p = "" then "."
  else
    let rooted := chIsPre ['/'] p.data
    let comps := (chSplit p.data ['/']).map String.mk
    let parts := (cleanComps rooted [] comps).reverse
    if rooted then
      if parts.isEmpty then "/"
      else String.mk ('/' :: chIntercalate ['/'] (parts.map String.data))
    else
      if parts.isEmpty then "."
      else String.mk (chIntercalate ['/'] (parts.map String.data))

/-- `path/filepath.Dir`: everything up to the final slash, cleaned;
`"."` when the path holds no slash. -/
def goPathDir (p : String) : String :=
  let pre := (p.data.reverse.dropWhile (fun c => c != '/')).reverse
  if pre.isEmpty then "." else goClean (String.mk pre)

/-- `path/filepath.Join` of two non-empty elements. -/
def goPathJoin (a b : String) : String :=
  if a = "" then (if b = "" then "" else goClean b)
  else if b = "" then goClean a
  else goClean (a ++ "/" ++ b)

/-! ## GCS access proxy (`packages/orchestrator/internal/gcsproxy/proxy.go`) -/

/-- The per-volume proxy configuration (`gcsproxy.Config`). -/
structure ProxyConfig where
  volumeID : String
  bucket : String
  deriving Repr, DecidableEq

/-- The query-parameter portion of `Proxy.isPathAllowed`: `some b` when the
function returns `b` from the `name`/`prefix` checks, `none` when control
falls through to the path inspection. -/
def queryDecision (cfg : ProxyConfig) (query : String) : Option Bool :=
  if query ≠ "" then
    match parseQuery query with
    | some values =>
      let nm := getQ values "name"
      if nm ≠ "" then some (goHasPrefix nm (cfg.volumeID ++ "/"))
      else
        let pr := getQ values "prefix"
        if pr ≠ "" then some (goHasPrefix pr (cfg.volumeID ++ "/"))
        else none
    | none => none
  else none

/-- The bucket-level fallback at the end of `isPathAllowed`. -/
def bucketAllowed (cfg : ProxyConfig) (path query : String) : Bool :=
  goContains path ("/b/" ++ cfg.bucket) && !goContains path "/o/" && query == ""

/-- `Proxy.isPathAllowed`, translated clause by clause from the source. -/
def isPathAllowed (cfg : ProxyConfig) (path query : String) : Bool :=
  match queryDecision cfg query with
  | some b => b
  | none =>
    if goContains path "/o/" then
      match goSplitN2 path "/o/" with
      | [_, raw] =>
        match pathUnescape raw with
        | none => false
        | some objectName => goHasPrefix objectName (cfg.volumeID ++ "/")
      | _ => bucketAllowed cfg path query
    else bucketAllowed cfg path query

/-- The object name resolvable from the URL path segment after `/o/`,
decoded the way `isPathAllowed` decodes it. -/
def resolvableObjectName (path : String) : Option String :=
  if goContains path "/o/" then
    match goSplitN2 path "/o/" with
    | [_, raw] => pathUnescape raw
    | _ => none
  else none

/-- Observable outcome of `wrapHandler` for one request. -/
inductive ProxyOutcome where
  | status (code : Nat)
  | forwarded
  deriving Repr, DecidableEq

/-- `Proxy.wrapHandler`: 403 when the path check fails, 500 when the token
provider fails, otherwise the request is forwarded upstream. -/
def wrapHandlerOutcome (cfg : ProxyConfig) (path query : String) (tokenOk : Bool) :
    ProxyOutcome :=
  if !isPathAllowed cfg path query then .status 403
  else if !tokenOk then .status 500
  else .forwarded

/-! ## Volume record store (`packages/db/queries/volumes/get.sql`,
`packages/api/internal/handlers/volumes.go`) -/

/-- One row of the `volumes` table (the columns the embedded handlers
read). -/
structure VolumeRow where
  id : String
  teamID : Nat
  name : String
  status : String
  deriving Repr, DecidableEq

/-- `GetVolume`: `SELECT * FROM volumes WHERE id = @id` (`none` stands for
`sql.ErrNoRows`). -/
def getVolume (db : List VolumeRow) (id : String) : Option VolumeRow :=
  db.find? (fun v => v.id == id)

/-- `GetVolumeByName`: `SELECT * FROM volumes WHERE team_id = @team_id AND
name = @name` — note: no filter on `status`. -/
def getVolumeByName (db : List VolumeRow) (teamID : Nat) (name : String) :
    Option VolumeRow :=
  db.find? (fun v => v.teamID == teamID && v.name == name)

/-- `UpdateVolumeStatus` applied to one row. -/
def statusUpd (id status : String) (v : VolumeRow) : VolumeRow :=
  if v.id == id then { v with status := status } else v

/-- `UpdateVolumeStatus`: set `status` of the row with the given id. -/
def updateVolumeStatus (db : List VolumeRow) (id status : String) : List VolumeRow :=
  db.map (statusUpd id status)

/-- `resolveVolume` (volumes.go): by-ID lookup with team-ownership check
when the argument carries the `vol_` prefix, by-(team,name) lookup
otherwise; `none` is `sql.ErrNoRows`, surfaced as HTTP 404. -/
def resolveVolume (db : List VolumeRow) (teamID : Nat) (idOrName : String) :
    Option VolumeRow :=
  if goHasPrefix idOrName "vol_" then
    match getVolume db idOrName with
    | none => none
    | some v => if v.teamID ≠ teamID then none else some v
  else getVolumeByName db teamID idOrName

/-- `resolveVolumeByID` (files handlers): by-ID only; a non-`vol_`
argument or a cross-team hit is `sql.ErrNoRows`. -/
def resolveVolumeByID (db : List VolumeRow) (teamID : Nat) (volumeID : String) :
    Option VolumeRow :=
  if ¬goHasPrefix volumeID "vol_" then none
  else
    match getVolume db volumeID with
    | none => none
    | some v => if v.teamID ≠ teamID then none else some v

/-- HTTP status produced by `GetVolumesIdOrName` for a resolvable request
(404 on `sql.ErrNoRows`, 200 otherwise). -/
def getVolumeHandlerStatus (db : List VolumeRow) (teamID : Nat) (idOrName : String) : Nat :=
  match resolveVolume db teamID idOrName with
  | none => 404
  | some _ => 200

/-- The volume-name grammar `^[a-z]([a-z0-9-]{0,61}[a-z0-9])?$` as a
decidable predicate: 1–63 characters, a lowercase letter first, lowercase
alphanumeric last, lowercase alphanumeric or hyphen in between. -/
def volumeNameMatches (s : String) : Bool :=
  match s.data with
  | [] => false
  | c :: rest =>
    (c.isLower && c.isAlpha) &&
    (match rest with
     | [] => true
     | _ :: _ =>
       rest.length ≤ 62 &&
       (rest.dropLast.all fun m => (m.isLower && m.isAlpha) || m.isDigit || m == '-') &&
       (match rest.getLast? with
        | some l => (l.isLower && l.isAlpha) || l.isDigit
        | none => true))

/-- Result of one `PostVolumes` request: HTTP status, the `volume_id` in
the response body (when any), and the database afterwards. -/
structure PostVolumesResult where
  status : Nat
  volumeID : Option String
  db : List VolumeRow
  deriving Repr, DecidableEq

/-- `PostVolumes` (volumes.go) in the configuration where the optional
collaborators (`volumesRedisClient`, `juicefsPool`) are nil: validate the
name, return the existing `(team, name)` row with 200 when there is one,
otherwise insert a `creating` row with a freshly generated id, flip it to
`available`, and answer 201.  `gen` is the value of `id.Generate()`. -/
def postVolumes (db : List VolumeRow) (team : Nat) (name gen : String) :
    PostVolumesResult :=
  if name = "" then ⟨400, none, db⟩
  else if ¬volumeNameMatches name then ⟨400, none, db⟩
  else
    match getVolumeByName db team name with
    | some existing => ⟨200, some existing.id, db⟩
    | none =>
      let volumeID := "vol_" ++ gen
      let db1 := db ++ [⟨volumeID, team, name, "creating"⟩]
      let db2 := updateVolumeStatus db1 volumeID "available"
      ⟨201, some volumeID, db2⟩

/-! ## In-VM mount agent (`src/unnamed/part_007`, package `volume`) -/

/-- The steps of `Mounter.Mount`, in source order; each value names the
stage whose identity the returned error wraps. -/
inductive MountStage where
  | binJuicefs
  | binLitestream
  | mkdirMount
  | writeToken
  | restore
  | format
  | journalMode
  | litestreamStart
  | mountJuicefs
  | verifyMount
  deriving Repr, DecidableEq

/-- Outcome of each external effect of the mount pipeline, fixed up front:
whether the two binaries are present, whether each subprocess or file
operation succeeds, and whether `meta.db` exists after the restore. -/
structure MountOracle where
  juicefsBinOk : Bool
  litestreamBinOk : Bool
  mkdirOk : Bool
  writeTokenOk : Bool
  restoreOk : Bool
  metaDBExists : Bool
  formatOk : Bool
  journalOk : Bool
  litestreamStartOk : Bool
  mountOk : Bool
  verifyOk : Bool
  deriving Repr, DecidableEq

/-- Resources the pipeline can leave behind: the replication daemon, the
FUSE mount, and the process-wide `currentMounter` reference. -/
structure MountState where
  daemonRunning : Bool
  fuseMounted : Bool
  currentMounterSet : Bool
  deriving Repr, DecidableEq

/-- `Mounter.Mount`, step by step.  A failing step returns the error
wrapped with its stage.  `stopLitestream` (SIGTERM, 10 s wait, SIGKILL on
overrun) is modelled as ending the daemon; it is invoked only on the
`mountJuiceFS` and `verifyMount` failure paths, exactly as in the source. -/
def mountRun (o : MountOracle) : Except MountStage Unit × MountState :=
  if ¬o.juicefsBinOk then (.error .binJuicefs, ⟨false, false, false⟩)
  else if ¬o.litestreamBinOk then (.error .binLitestream, ⟨false, false, false⟩)
  else if ¬o.mkdirOk then (.error .mkdirMount, ⟨false, false, false⟩)
  else if ¬o.writeTokenOk then (.error .writeToken, ⟨false, false, false⟩)
  else if ¬o.restoreOk then (.error .restore, ⟨false, false, false⟩)
  else if ¬o.metaDBExists ∧ ¬o.formatOk then (.error .format, ⟨false, false, false⟩)
  else if ¬o.journalOk then (.error .journalMode, ⟨false, false, false⟩)
  else if ¬o.litestreamStartOk then (.error .litestreamStart, ⟨false, false, false⟩)
  -- from here the replication daemon has been spawned
  else if ¬o.mountOk then
    -- `stopLitestream` runs before returning: daemon stopped, nothing mounted
    (.error .mountJuicefs, ⟨false, false, false⟩)
  -- from here the FUSE mount has been created by a successful `juicefs mount`
  else if ¬o.verifyOk then
    -- `stopLitestream` runs, but no `umount`: the FUSE mount stays
    (.error .verifyMount, ⟨false, true, false⟩)
  else (.ok (), ⟨true, true, true⟩)

/-! ## Control-plane litestream sync-back
(`packages/api/internal/juicefs/restore.go`) -/

/-- `ReplicateTimeout` in restore.go: `10 * time.Second`. -/
def replicateTimeoutSeconds : Nat := 10

/-- What one `syncViaLitestream` invocation does, as data: the replica URL
written into the config, the config path, the argument vector handed to the
litestream binary, and the fixed time the code waits before interrupting
the daemon. -/
structure SyncPlan where
  replicaURL : String
  configPath : String
  args : List String
  waitSeconds : Nat
  deriving Repr, DecidableEq

/-- `syncViaLitestream` (restore.go): writes a config pointing at
`gs://bucket/volumeID-meta`, starts `litestream replicate -config <yml>`
(no `-once` flag), sleeps `ReplicateTimeout`, then interrupts the process;
it returns an error only when writing the config or starting the process
fails. -/
def syncViaLitestreamPlan (volumeID metaDBPath gcsBucket : String) : SyncPlan :=
  let replicaURL := "gs://" ++ gcsBucket ++ "/" ++ volumeID ++ "-meta"
  let configPath := goPathJoin (goPathDir metaDBPath) "litestream.yml"
  { replicaURL := replicaURL
    configPath := configPath
    args := ["replicate", "-config", configPath]
    waitSeconds := replicateTimeoutSeconds }

/-! ## Sandbox-run event consumer (`src/unnamed/part_005`, package
`sandboxruns`; `packages/db/queries/sandbox_runs/update.sql`) -/

/-- A JSON value as far as the consumer's type assertion
`event.EventData["end_reason"].(string)` can see it. -/
inductive JsonVal where
  | str (s : String)
  | nonString
  deriving Repr, DecidableEq

/-- The decoded fields of a `SandboxEvent` the killed-handler reads. -/
structure SandboxEvent where
  sandboxID : String
  eventData : List (String × JsonVal)
  deriving Repr, DecidableEq

/-- The string at key `k` of `event_data`, when present and a string. -/
def eventDataStr (ed : List (String × JsonVal)) (k : String) : Option String :=
  match ed.find? (fun kv => kv.1 == k) with
  | some (_, .str s) => some s
  | _ => none

/-- `handleKilled`'s reason: `end_reason` from the event payload when it is
a non-empty string, `"killed"` otherwise. -/
def killedEndReason (ev : SandboxEvent) : String :=
  match eventDataStr ev.eventData "end_reason" with
  | some r => if r ≠ "" then r else "killed"
  | none => "killed"

/-- One row of `sandbox_runs` (the columns `EndSandboxRun` touches). -/
structure SandboxRunRow where
  sandboxID : String
  status : String
  endReason : Option String
  endedAt : Option Nat
  updatedAt : Nat
  deriving Repr, DecidableEq

/-- `EndSandboxRun` applied to one row at time `now`. -/
def endRunUpd (sandboxID reason : String) (now : Nat) (r : SandboxRunRow) :
    SandboxRunRow :=
  if r.sandboxID == sandboxID then
    { r with status := "stopped", endReason := some reason,
             endedAt := some now, updatedAt := now }
  else r

/-- `EndSandboxRun`: `UPDATE sandbox_runs SET status='stopped',
end_reason=@end_reason, ended_at=NOW(), updated_at=NOW() WHERE
sandbox_id=@sandbox_id`. -/
def endSandboxRun (db : List SandboxRunRow) (sandboxID reason : String) (now : Nat) :
    List SandboxRunRow :=
  db.map (endRunUpd sandboxID reason now)

/-- `Consumer.handleKilled`: one `sandbox.killed` event projected onto the
ledger. -/
def handleKilled (db : List SandboxRunRow) (ev : SandboxEvent) (now : Nat) :
    List SandboxRunRow :=
  endSandboxRun db ev.sandboxID (killedEndReason ev) now

/-! ## Out-of-band filesystem client (`src/unnamed/part_009`, package
`juicefs`, and the files handlers in `handlers`)

The embedded JuiceFS library is an external black box; the spec describes
it as a POSIX-like filesystem.  It is modelled as a finite map from clean
absolute paths to nodes, with the POSIX error codes the client code
branches on (`ENOENT`, `EEXIST` via create-then-truncate, `ENOTEMPTY`). -/

/-- POSIX error numbers the embedded client code distinguishes. -/
inductive Errno where
  | enoent
  | eexist
  | enotempty
  | enotdir
  | eisdir
  deriving Repr, DecidableEq

/-- A filesystem node: a directory, or a file with its size in bytes. -/
inductive FNode where
  | dir
  | file (size : Nat)
  deriving Repr, DecidableEq

/-- The filesystem: an association list from paths to nodes (the root
`"/"` is implicit and always a directory). -/
abbrev FS := List (String × FNode)

/-- Lookup of a path. -/
def fsLookup : FS → String → Option FNode
  | [], _ => none
  | e :: rest, p => if e.1 = p then some e.2 else fsLookup rest p

/-- Insert or replace an entry. -/
def fsInsert : FS → String → FNode → FS
  | [], p, n => [(p, n)]
  | e :: rest, p, n => if e.1 = p then (p, n) :: rest else e :: fsInsert rest p n

/-- Remove one entry. -/
def fsErase (fs : FS) (p : String) : FS :=
  fs.filter fun e => !decide (e.1 = p)

/-- Remove an entry and everything below it. -/
def fsEraseTree (fs : FS) (p : String) : FS :=
  fs.filter fun e => !(decide (e.1 = p) || goHasPrefix e.1 (p ++ "/"))

/-- Whether `p` denotes a directory (the root always does). -/
def isDirIn (fs : FS) (p : String) : Bool :=
  p = "/" || fsLookup fs p == some .dir

/-- Whether the directory at `p` has an entry strictly below it. -/
def fsHasChild (fs : FS) (p : String) : Bool :=
  fs.any fun e => goHasPrefix e.1 (p ++ "/")

/-- `path/filepath.Base`-like final component (no trailing-slash cases are
exercised: the stored paths are clean). -/
def goBase (p : String) : String :=
  String.mk ((p.data.reverse.takeWhile fun c => c != '/').reverse)

/-- Lexicographic character-list comparison (the `sort.Slice` by name in
`ListDir`). -/
def chLt : List Char → List Char → Bool
  | [], [] => false
  | [], _ :: _ => true
  | _ :: _, [] => false
  | a :: as, b :: bs => if a == b then chLt as bs else decide (a < b)

/-- Insert into a name-sorted list. -/
def insertName (x : String) : List String → List String
  | [] => [x]
  | y :: rest => if chLt x.data y.data then x :: y :: rest else y :: insertName x rest

/-- Sort names (insertion sort). -/
def sortNames : List String → List String
  | [] => []
  | x :: rest => insertName x (sortNames rest)

/-- Create one directory entry: a no-op if it exists as a directory, an
error if a file is in the way. -/
def mkdirOne (fs : FS) (p : String) : Except Errno FS :=
  match fsLookup fs p with
  | some .dir => .ok fs
  | some (.file _) => .error .enotdir
  | none => .ok (fsInsert fs p .dir)

/-- The chain of ancestor paths `base/c₁`, `base/c₁/c₂`, … -/
def ancestorPaths (base : String) : List String → List String
  | [] => []
  | c :: rest => (base ++ "/" ++ c) :: ancestorPaths (base ++ "/" ++ c) rest

/-- All prefixes of an absolute directory path, outermost first. -/
def dirPrefixes (dir : String) : List String :=
  ancestorPaths "" (((chSplit dir.data ['/']).map String.mk).filter fun c => c ≠ "")

/-- Worker for `MkdirAll` over the list of prefixes. -/
def mkdirAllGo (fs : FS) : List String → Except Errno FS
  | [] => .ok fs
  | p :: rest =>
    match mkdirOne fs p with
    | .error e => .error e
    | .ok fs2 => mkdirAllGo fs2 rest

/-- `jfs.MkdirAll`: create every missing ancestor of `dir`. -/
def jfsMkdirAll (fs : FS) (dir : String) : Except Errno FS :=
  mkdirAllGo fs (dirPrefixes dir)

/-- Identity of one open volume client (`Client.volumeID`,
`Client.config.GCSBucket`, `Client.sqlitePath`). -/
structure ClientMeta where
  volumeID : String
  gcsBucket : String
  sqlitePath : String
  deriving Repr, DecidableEq

/-- The mutable state of one `Client`: the `closed` flag guarded by the
RW-lock, the volume filesystem, how many times `Close` actually released
resources, and the record of sync-back invocations (plan plus whether the
sync succeeded). -/
structure ClientState where
  meta : ClientMeta
  closed : Bool
  fs : FS
  cleanupCount : Nat
  syncLog : List (SyncPlan × Bool)
  deriving Repr, DecidableEq

/-- Errors a client operation can return. -/
inductive OpError where
  | clientClosed
  | pathNotFound (p : String)
  | fsError (e : Errno)
  deriving Repr, DecidableEq

/-- The sync-back plan this client would run (`syncToGCSLocked` calls
`syncViaLitestream` with the client's volume, local DB path and bucket). -/
def clientSyncPlan (c : ClientState) : SyncPlan :=
  syncViaLitestreamPlan c.meta.volumeID c.meta.sqlitePath c.meta.gcsBucket

/-- `Client.Close`: idempotent; only the first call closes the session and
deletes the temp directory. -/
def clientClose (c : ClientState) : Option String × ClientState :=
  if c.closed then (none, c)
  else (none, { c with closed := true, cleanupCount := c.cleanupCount + 1 })

/-- `Client.ListDir`: names of the direct children, sorted, with
offset/limit pagination exactly as in the source. -/
def clientListDir (c : ClientState) (path : String) (limit offset : Nat) :
    Except OpError (List String × Bool) × ClientState :=
  if c.closed then (.error .clientClosed, c)
  else if ¬isDirIn c.fs path then
    match fsLookup c.fs path with
    | none => (.error (.pathNotFound path), c)
    | some _ => (.error (.fsError .enotdir), c)
  else
    let names := sortNames ((c.fs.filter fun e => decide (goPathDir e.1 = path)).map
      fun e => goBase e.1)
    let total := names.length
    if offset > 0 ∧ offset ≥ total then (.ok ([], false), c)
    else
      let entries := if offset > 0 then names.drop offset else names
      if limit > 0 ∧ entries.length > limit then (.ok (entries.take limit, true), c)
      else (.ok (entries, false), c)

/-- `Client.Download`: the size of the opened file (a directory opens with
an unspecified size, pinned to 0 here). -/
def clientDownload (c : ClientState) (path : String) :
    Except OpError Nat × ClientState :=
  if c.closed then (.error .clientClosed, c)
  else
    match fsLookup c.fs path with
    | none => (.error (.pathNotFound path), c)
    | some (.file k) => (.ok k, c)
    | some .dir => (.ok 0, c)

/-- The `MkdirAll` step of `Client.Upload` (skipped for a root-level or
relative-degenerate parent, as in the source). -/
def uploadMkdirStep (fs : FS) (dir : String) : Except Errno FS :=
  if dir ≠ "/" ∧ dir ≠ "." then jfsMkdirAll fs dir else .ok fs

/-- The create step of `Client.Upload`: `jfs.Create`, falling back to
open-for-write plus `Truncate(0)` when the file already exists. -/
def uploadCreateStep (fs : FS) (p : String) : Except OpError FS :=
  match fsLookup fs p with
  | some (.file _) => .ok (fsInsert fs p (.file 0))
  | some .dir => .error (.fsError .eisdir)
  | none =>
    if isDirIn fs (goPathDir p) then .ok (fsInsert fs p (.file 0))
    else .error (.fsError .enoent)

/-- `Client.Upload`: closed check, parent creation, create-or-truncate,
write of `contentLen` bytes, then sync-back whose failure is only a
warning (`syncOk` does not influence the returned value). -/
def clientUpload (c : ClientState) (path : String) (contentLen : Nat) (syncOk : Bool) :
    Except OpError Nat × ClientState :=
  if c.closed then (.error .clientClosed, c)
  else
    match uploadMkdirStep c.fs (goPathDir path) with
    | .error e => (.error (.fsError e), c)
    | .ok fs1 =>
      match uploadCreateStep fs1 path with
      | .error e => (.error e, c)
      | .ok fs2 =>
        let fs3 := fsInsert fs2 path (.file contentLen)
        (.ok contentLen,
          { c with fs := fs3, syncLog := c.syncLog ++ [(clientSyncPlan c, syncOk)] })

/-- `Client.Delete`: `ENOENT` is swallowed (returning success without a
sync-back); otherwise the entry (or, recursively, the whole subtree) is
removed and a sync-back runs whose failure is only a warning. -/
def clientDelete (c : ClientState) (path : String) (recursive syncOk : Bool) :
    Except OpError Unit × ClientState :=
  if c.closed then (.error .clientClosed, c)
  else if recursive then
    match fsLookup c.fs path with
    | none => (.ok (), c)
    | some _ =>
      (.ok (), { c with fs := fsEraseTree c.fs path,
                        syncLog := c.syncLog ++ [(clientSyncPlan c, syncOk)] })
  else
    match fsLookup c.fs path with
    | none => (.ok (), c)
    | some .dir =>
      if fsHasChild c.fs path then (.error (.fsError .enotempty), c)
      else (.ok (), { c with fs := fsErase c.fs path,
                             syncLog := c.syncLog ++ [(clientSyncPlan c, syncOk)] })
    | some (.file _) =>
      (.ok (), { c with fs := fsErase c.fs path,
                        syncLog := c.syncLog ++ [(clientSyncPlan c, syncOk)] })

/-- Whether the Go error text of an `OpError` contains `"not found"` (the
substring the files handlers test with `strings.Contains`). -/
def errTextHasNotFound : OpError → Bool
  | .pathNotFound _ => true
  | _ => false

/-- `DeleteVolumesVolumeIDFiles`: ownership check, pool check, path
validation and cleaning, then `client.Delete`; both a successful delete
and a "not found" error answer 204 No Content. -/
def deleteVolumesFilesHandler (db : List VolumeRow) (teamID : Nat) (volumeID : String)
    (poolConfigured : Bool) (pathParam : String) (recursiveParam : Option Bool)
    (c : ClientState) (syncOk : Bool) : Nat × ClientState :=
  match resolveVolumeByID db teamID volumeID with
  | none => (404, c)
  | some _ =>
    if ¬poolConfigured then (503, c)
    else if ¬goHasPrefix pathParam "/" then (400, c)
    else
      let path := goClean pathParam
      let recursive := recursiveParam.getD false
      match clientDelete c path recursive syncOk with
      | (.error e, c2) => if errTextHasNotFound e then (204, c2) else (500, c2)
      | (.ok _, c2) => (204, c2)

/-- `PutVolumesVolumeIDFilesUpload`: ownership check, pool check, path
validation and cleaning; a nil body is replaced by an empty reader; a
successful upload answers 201 Created with the cleaned path and the byte
count written. -/
def putVolumesFilesUploadHandler (db : List VolumeRow) (teamID : Nat)
    (volumeID : String) (poolConfigured : Bool) (pathParam : String)
    (bodyLen : Option Nat) (c : ClientState) (syncOk : Bool) :
    (Nat × Option String × Option Nat) × ClientState :=
  match resolveVolumeByID db teamID volumeID with
  | none => ((404, none, none), c)
  | some _ =>
    if ¬poolConfigured then ((503, none, none), c)
    else if ¬goHasPrefix pathParam "/" then ((400, none, none), c)
    else
      let path := goClean pathParam
      let contentLen := bodyLen.getD 0
      match clientUpload c path contentLen syncOk with
      | (.error _, c2) => ((500, none, none), c2)
      | (.ok written, c2) => ((201, some path, some written), c2)

/-! ## Theorems -/

/-- C1 (counterexample).  The claim quantifies over every accepted request
with an object name resolvable from the path after `/o/`.  A request whose
query carries a `name` parameter inside the volume prefix is accepted by
the `name`-parameter branch of `isPathAllowed` without the path object
name ever being checked, so a path object `evil/file` outside the volume
passes and is forwarded rather than rejected with 403.  Moreover a
bucket-scoped request with no object and no prefix but a non-empty query
string (here `alt=json`) is rejected, against the claim's final clause. -/
theorem isPathAllowed_query_bypass :
    isPathAllowed ⟨"vol_1", "bkt"⟩ "/storage/v1/b/bkt/o/evil/file" "name=vol_1/x" = true ∧
    resolvableObjectName "/storage/v1/b/bkt/o/evil/file" = some "evil/file" ∧
    goHasPrefix "evil/file" ("vol_1" ++ "/") = false ∧
    wrapHandlerOutcome ⟨"vol_1", "bkt"⟩ "/storage/v1/b/bkt/o/evil/file" "name=vol_1/x" true =
      .forwarded ∧
    isPathAllowed ⟨"vol_1", "bkt"⟩ "/storage/v1/b/bkt" "alt=json" = false := by
  decide

/-- C1 (amended).  When the query string contributes no decision — it is
empty, unparsable, or holds no non-empty `name` or `prefix` parameter —
a request with an object name resolvable from the path after `/o/` is
accepted exactly when the decoded object name starts with
`volume_id ++ "/"`, and otherwise `wrapHandler` rejects it with 403. -/
theorem isPathAllowed_prefix_containment (cfg : ProxyConfig) (path query obj : String)
    (tokenOk : Bool)
    (hq : queryDecision cfg query = none)
    (hobj : resolvableObjectName path = some obj) :
    isPathAllowed cfg path query = goHasPrefix obj (cfg.volumeID ++ "/") ∧
    (goHasPrefix obj (cfg.volumeID ++ "/") = false →
      wrapHandlerOutcome cfg path query tokenOk = .status 403) := by
  have hmain : isPathAllowed cfg path query = goHasPrefix obj (cfg.volumeID ++ "/") := by
    unfold resolvableObjectName at hobj
    unfold isPathAllowed
    rw [hq]
    by_cases hc : goContains path "/o/" = true
    · rw [hc] at hobj
      simp only [if_true] at hobj
      rcases hsp : goSplitN2 path "/o/" with _ | ⟨x, _ | ⟨raw, tail⟩⟩
      · rw [hsp] at hobj; simp at hobj
      · rw [hsp] at hobj; simp at hobj
      · cases tail with
        | nil =>
          rw [hsp] at hobj
          simp only at hobj
          simp only [hc, if_true, hsp, hobj]
        | cons y ys =>
          rw [hsp] at hobj; simp at hobj
    · have hc' : goContains path "/o/" = false := by
        cases h : goContains path "/o/" with
        | false => rfl
        | true => exact absurd h hc
      rw [hc'] at hobj
      simp at hobj
  refine ⟨hmain, fun hf => ?_⟩
  unfold wrapHandlerOutcome
  rw [hmain, hf]
  rfl

/-- C1 (witness): a concrete in-prefix download URL with an empty query is
accepted, discharging both hypotheses of the amended theorem. -/
theorem isPathAllowed_prefix_containment_witness :
    isPathAllowed ⟨"vol_1", "bkt"⟩ "/storage/v1/b/bkt/o/vol_1/data" "" =
      goHasPrefix "vol_1/data" ("vol_1" ++ "/") := by
  exact (isPathAllowed_prefix_containment ⟨"vol_1", "bkt"⟩
    "/storage/v1/b/bkt/o/vol_1/data" "" "vol_1/data" true (by decide) (by decide)).1

/-- C2.  A by-ID lookup of a volume owned by another team returns
`sql.ErrNoRows` (modelled as `none`) from both `resolveVolume` and
`resolveVolumeByID`, and the volume handler surfaces it as HTTP 404,
hiding the volume's existence. -/
theorem crossTeamLookupHidden (db : List VolumeRow) (t1 : Nat) (v : VolumeRow)
    (hne : t1 ≠ v.teamID)
    (hpre : goHasPrefix v.id "vol_" = true)
    (hget : getVolume db v.id = some v) :
    resolveVolume db t1 v.id = none ∧
    resolveVolumeByID db t1 v.id = none ∧
    getVolumeHandlerStatus db t1 v.id = 404 := by
  have hneq : v.teamID ≠ t1 := fun h => hne h.symm
  constructor
  · unfold resolveVolume
    rw [hpre, hget]
    simp [hneq]
  constructor
  · unfold resolveVolumeByID
    rw [hpre, hget]
    simp [hneq]
  · unfold getVolumeHandlerStatus resolveVolume
    rw [hpre, hget]
    simp [hneq]

/-- C2 (witness): a concrete two-team database. -/
theorem crossTeamLookupHidden_witness :
    resolveVolume [⟨"vol_a", 2, "foo", "available"⟩] 1 "vol_a" = none ∧
    resolveVolumeByID [⟨"vol_a", 2, "foo", "available"⟩] 1 "vol_a" = none ∧
    getVolumeHandlerStatus [⟨"vol_a", 2, "foo", "available"⟩] 1 "vol_a" = 404 := by
  have h := crossTeamLookupHidden [⟨"vol_a", 2, "foo", "available"⟩] 1
    ⟨"vol_a", 2, "foo", "available"⟩ (by decide) (by decide) (by decide)
  exact h

/-- `UpdateVolumeStatus` never changes a row's team. -/
theorem statusUpd_teamID (id st : String) (v : VolumeRow) :
    (statusUpd id st v).teamID = v.teamID := by
  unfold statusUpd; split <;> rfl

/-- `UpdateVolumeStatus` never changes a row's name. -/
theorem statusUpd_name (id st : String) (v : VolumeRow) :
    (statusUpd id st v).name = v.name := by
  unfold statusUpd; split <;> rfl

/-- Name-lookup commutes with a status update. -/
theorem getVolumeByName_updateVolumeStatus (db : List VolumeRow) (id st : String)
    (team : Nat) (name : String) :
    getVolumeByName (updateVolumeStatus db id st) team name =
      (getVolumeByName db team name).map (statusUpd id st) := by
  induction db with
  | nil => rfl
  | cons v rest ih =>
    unfold updateVolumeStatus at *
    unfold getVolumeByName at *
    by_cases hp : (v.teamID == team && v.name == name) = true
    · have hp2 : ((statusUpd id st v).teamID == team && (statusUpd id st v).name == name) = true := by
        rw [statusUpd_teamID, statusUpd_name]; exact hp
      simp [List.find?, hp, hp2]
    · have hp2 : ((statusUpd id st v).teamID == team && (statusUpd id st v).name == name) = false := by
        rw [statusUpd_teamID, statusUpd_name]
        cases h : (v.teamID == team && v.name == name) with
        | false => rfl
        | true => exact absurd h hp
      have hp3 : (v.teamID == team && v.name == name) = false := by
        cases h : (v.teamID == team && v.name == name) with
        | false => rfl
        | true => exact absurd h hp
      simp only [List.map_cons, List.find?, hp2, hp3]
      exact ih

/-- Name-lookup over an appended database, when the front part misses. -/
theorem getVolumeByName_append_none (db1 db2 : List VolumeRow) (team : Nat) (name : String)
    (h : getVolumeByName db1 team name = none) :
    getVolumeByName (db1 ++ db2) team name = getVolumeByName db2 team name := by
  induction db1 with
  | nil => rfl
  | cons v rest ih =>
    unfold getVolumeByName at *
    cases hp : (v.teamID == team && v.name == name) with
    | true => simp [List.find?, hp] at h
    | false =>
      simp only [List.cons_append, List.find?, hp] at h ⊢
      exact ih h

/-- C3.  Volume creation is idempotent by name: with no existing
`(team, name)` row, the first `PostVolumes` answers 201 Created with a
fresh `vol_`-prefixed id, and an immediately repeated `PostVolumes`
answers 200 OK with the same id and leaves the database unchanged. -/
theorem postVolumes_idempotent (db : List VolumeRow) (team : Nat) (name g1 g2 : String)
    (hvalid : volumeNameMatches name = true)
    (hnone : getVolumeByName db team name = none) :
    (postVolumes db team name g1).status = 201 ∧
    (postVolumes db team name g1).volumeID = some ("vol_" ++ g1) ∧
    (postVolumes (postVolumes db team name g1).db team name g2).status = 200 ∧
    (postVolumes (postVolumes db team name g1).db team name g2).volumeID =
      (postVolumes db team name g1).volumeID ∧
    (postVolumes (postVolumes db team name g1).db team name g2).db =
      (postVolumes db team name g1).db := by
  have hne : name ≠ "" := fun h => by rw [h] at hvalid; exact absurd hvalid (by decide)
  have hfind1 : getVolumeByName (db ++ [⟨"vol_" ++ g1, team, name, "creating"⟩]) team name =
      some ⟨"vol_" ++ g1, team, name, "creating"⟩ := by
    rw [getVolumeByName_append_none db _ team name hnone]
    unfold getVolumeByName
    simp [List.find?]
  have hfound : getVolumeByName
      (updateVolumeStatus (db ++ [⟨"vol_" ++ g1, team, name, "creating"⟩])
        ("vol_" ++ g1) "available") team name =
      some ⟨"vol_" ++ g1, team, name, "available"⟩ := by
    rw [getVolumeByName_updateVolumeStatus, hfind1]
    simp [statusUpd]
  have h1 : postVolumes db team name g1 =
      ⟨201, some ("vol_" ++ g1),
        updateVolumeStatus (db ++ [⟨"vol_" ++ g1, team, name, "creating"⟩])
          ("vol_" ++ g1) "available"⟩ := by
    unfold postVolumes
    simp [hne, hvalid, hnone]
  have h2 : postVolumes
      (updateVolumeStatus (db ++ [⟨"vol_" ++ g1, team, name, "creating"⟩])
        ("vol_" ++ g1) "available") team name g2 =
      ⟨200, some ("vol_" ++ g1),
        updateVolumeStatus (db ++ [⟨"vol_" ++ g1, team, name, "creating"⟩])
          ("vol_" ++ g1) "available"⟩ := by
    unfold postVolumes
    simp [hne, hvalid, hfound]
  rw [h1]
  dsimp only
  rw [h2]
  exact ⟨rfl, rfl, rfl, rfl, rfl⟩

/-- C3 (witness): two consecutive creates of `foo` on an empty store. -/
theorem postVolumes_idempotent_witness :
    (postVolumes [] 0 "foo" "x1").status = 201 ∧
    (postVolumes [] 0 "foo" "x1").volumeID = some ("vol_" ++ "x1") ∧
    (postVolumes (postVolumes [] 0 "foo" "x1").db 0 "foo" "x2").status = 200 ∧
    (postVolumes (postVolumes [] 0 "foo" "x1").db 0 "foo" "x2").volumeID =
      (postVolumes [] 0 "foo" "x1").volumeID ∧
    (postVolumes (postVolumes [] 0 "foo" "x1").db 0 "foo" "x2").db =
      (postVolumes [] 0 "foo" "x1").db := by
  exact postVolumes_idempotent [] 0 "foo" "x1" "x2" (by decide) (by decide)

/-- C4 (counterexample).  `GetVolumeByName` carries no status filter, so a
row in state `deleting` *is* returned by name-lookup, `resolveVolume`
surfaces it, and the existence check inside `PostVolumes` answers 200 with
the deleting volume's id — against the claim that a `deleting` volume is
never returned by name-lookup. -/
theorem getVolumeByName_returns_deleting :
    getVolumeByName [⟨"vol_d", 7, "foo", "deleting"⟩] 7 "foo" =
      some ⟨"vol_d", 7, "foo", "deleting"⟩ ∧
    resolveVolume [⟨"vol_d", 7, "foo", "deleting"⟩] 7 "foo" =
      some ⟨"vol_d", 7, "foo", "deleting"⟩ ∧
    getVolumeHandlerStatus [⟨"vol_d", 7, "foo", "deleting"⟩] 7 "foo" = 200 ∧
    (postVolumes [⟨"vol_d", 7, "foo", "deleting"⟩] 7 "foo" "zzz").status = 200 ∧
    (postVolumes [⟨"vol_d", 7, "foo", "deleting"⟩] 7 "foo" "zzz").volumeID =
      some "vol_d" := by
  decide

/-- C4 (amended).  Name-lookup filters only on `(team, name)`: whatever the
row's status — in particular `deleting` — `GetVolumeByName`'s hit is
returned by `resolveVolume` (hence by Get and Delete), answered 200 by the
volume handler, and returned as the idempotent hit by `PostVolumes`. -/
theorem getVolumeByName_ignores_status (db : List VolumeRow) (team : Nat) (n g : String)
    (v : VolumeRow)
    (hfind : getVolumeByName db team n = some v)
    (hdel : v.status = "deleting")
    (hvalid : volumeNameMatches n = true)
    (hnp : goHasPrefix n "vol_" = false) :
    resolveVolume db team n = some v ∧
    getVolumeHandlerStatus db team n = 200 ∧
    postVolumes db team n g = ⟨200, some v.id, db⟩ := by
  have hne : n ≠ "" := fun h => by rw [h] at hvalid; exact absurd hvalid (by decide)
  refine ⟨?_, ?_, ?_⟩
  · unfold resolveVolume
    rw [hnp]
    simpa using hfind
  · unfold getVolumeHandlerStatus resolveVolume
    rw [hnp]
    simp [hfind]
  · unfold postVolumes
    simp [hne, hvalid, hfind]

/-- C4 (amended, witness): a concrete deleting row found by name. -/
theorem getVolumeByName_ignores_status_witness :
    resolveVolume [⟨"vol_e", 9, "bar", "deleting"⟩] 9 "bar" =
      some ⟨"vol_e", 9, "bar", "deleting"⟩ ∧
    getVolumeHandlerStatus [⟨"vol_e", 9, "bar", "deleting"⟩] 9 "bar" = 200 ∧
    postVolumes [⟨"vol_e", 9, "bar", "deleting"⟩] 9 "bar" "g" =
      ⟨200, some "vol_e", [⟨"vol_e", 9, "bar", "deleting"⟩]⟩ := by
  exact getVolumeByName_ignores_status [⟨"vol_e", 9, "bar", "deleting"⟩] 9 "bar" "g"
    ⟨"vol_e", 9, "bar", "deleting"⟩ (by decide) (by decide) (by decide) (by decide)

/-- C5 (counterexample).  When every step succeeds except the final mount
verification, `Mount` stops the replication daemon and returns an error
wrapped with the verification stage, but the FUSE mount created by the
preceding (successful) `juicefs mount` is left mounted: no `umount` runs
on this failure path, against the claim that no failure leaves an orphan
FUSE mount. -/
theorem mountRun_verify_failure_orphans_fuse :
    mountRun ⟨true, true, true, true, true, true, true, true, true, true, false⟩ =
      (.error .verifyMount, ⟨false, true, false⟩) ∧
    (mountRun ⟨true, true, true, true, true, true, true, true, true, true, false⟩).2.fuseMounted =
      true :=
  ⟨rfl, rfl⟩

/-- C5 (amended).  Every failing stage of `Mount` returns an error wrapped
with that stage's identity, leaves the replication daemon stopped (it is
either not yet spawned, or stopped via `stopLitestream`), and leaves the
process-wide current-mounter reference unset; no FUSE mount is left behind
by failures up to and including the `juicefs mount` step itself, but a
mount-verification failure leaves the just-created FUSE mount mounted. -/
theorem mountRun_failure_cleanup (o : MountOracle) (e : MountStage)
    (h : (mountRun o).1 = .error e) :
    (mountRun o).2.daemonRunning = false ∧
    (mountRun o).2.currentMounterSet = false ∧
    (e ≠ .verifyMount → (mountRun o).2.fuseMounted = false) ∧
    (e = .verifyMount → (mountRun o).2.fuseMounted = true) := by
  unfold mountRun at h ⊢
  by_cases c1 : ¬o.juicefsBinOk = true
  · rw [if_pos c1] at h ⊢
    cases h
    exact ⟨rfl, rfl, fun _ => rfl, fun hh => absurd hh (by decide)⟩
  rw [if_neg c1] at h ⊢
  by_cases c2 : ¬o.litestreamBinOk = true
  · rw [if_pos c2] at h ⊢
    cases h
    exact ⟨rfl, rfl, fun _ => rfl, fun hh => absurd hh (by decide)⟩
  rw [if_neg c2] at h ⊢
  by_cases c3 : ¬o.mkdirOk = true
  · rw [if_pos c3] at h ⊢
    cases h
    exact ⟨rfl, rfl, fun _ => rfl, fun hh => absurd hh (by decide)⟩
  rw [if_neg c3] at h ⊢
  by_cases c4 : ¬o.writeTokenOk = true
  · rw [if_pos c4] at h ⊢
    cases h
    exact ⟨rfl, rfl, fun _ => rfl, fun hh => absurd hh (by decide)⟩
  rw [if_neg c4] at h ⊢
  by_cases c5 : ¬o.restoreOk = true
  · rw [if_pos c5] at h ⊢
    cases h
    exact ⟨rfl, rfl, fun _ => rfl, fun hh => absurd hh (by decide)⟩
  rw [if_neg c5] at h ⊢
  by_cases c6 : ¬o.metaDBExists = true ∧ ¬o.formatOk = true
  · rw [if_pos c6] at h ⊢
    cases h
    exact ⟨rfl, rfl, fun _ => rfl, fun hh => absurd hh (by decide)⟩
  rw [if_neg c6] at h ⊢
  by_cases c7 : ¬o.journalOk = true
  · rw [if_pos c7] at h ⊢
    cases h
    exact ⟨rfl, rfl, fun _ => rfl, fun hh => absurd hh (by decide)⟩
  rw [if_neg c7] at h ⊢
  by_cases c8 : ¬o.litestreamStartOk = true
  · rw [if_pos c8] at h ⊢
    cases h
    exact ⟨rfl, rfl, fun _ => rfl, fun hh => absurd hh (by decide)⟩
  rw [if_neg c8] at h ⊢
  by_cases c9 : ¬o.mountOk = true
  · rw [if_pos c9] at h ⊢
    cases h
    exact ⟨rfl, rfl, fun _ => rfl, fun hh => absurd hh (by decide)⟩
  rw [if_neg c9] at h ⊢
  by_cases c10 : ¬o.verifyOk = true
  · rw [if_pos c10] at h ⊢
    cases h
    exact ⟨rfl, rfl, fun hne => absurd rfl hne, fun _ => rfl⟩
  rw [if_neg c10] at h ⊢
  simp at h

/-- C5 (witness): a failing restore aborts the pipeline with the restore
stage and no daemon, mount or mounter reference. -/
theorem mountRun_failure_cleanup_witness :
    (mountRun ⟨true, true, true, true, false, true, true, true, true, true, true⟩).1 =
      .error .restore ∧
    (mountRun ⟨true, true, true, true, false, true, true, true, true, true, true⟩).2.daemonRunning =
      false ∧
    (mountRun ⟨true, true, true, true, false, true, true, true, true, true, true⟩).2.fuseMounted =
      false := by
  have h := mountRun_failure_cleanup
    ⟨true, true, true, true, false, true, true, true, true, true, true⟩ .restore rfl
  exact ⟨rfl, h.1, h.2.2.1 (by decide)⟩

/-- C6 (counterexample).  The sync-back in restore.go runs
`litestream replicate -config <yml>` with no `-once` flag and waits a
fixed `ReplicateTimeout = 10` seconds before interrupting the daemon — not
`replicate -once -config <yml>` under a 30-second ceiling as the claim
states.  (The replica URL does point at the volume's `-meta` prefix.) -/
theorem syncViaLitestream_not_once :
    (syncViaLitestreamPlan "vol_1" "/tmp/juicefs-api/vol_1/meta.db" "bkt").args =
      ["replicate", "-config", "/tmp/juicefs-api/vol_1/litestream.yml"] ∧
    ("-once" ∈ (syncViaLitestreamPlan "vol_1" "/tmp/juicefs-api/vol_1/meta.db" "bkt").args) =
      False ∧
    (syncViaLitestreamPlan "vol_1" "/tmp/juicefs-api/vol_1/meta.db" "bkt").waitSeconds = 10 ∧
    ¬(syncViaLitestreamPlan "vol_1" "/tmp/juicefs-api/vol_1/meta.db" "bkt").waitSeconds = 30 ∧
    (syncViaLitestreamPlan "vol_1" "/tmp/juicefs-api/vol_1/meta.db" "bkt").replicaURL =
      "gs://bkt/vol_1-meta" := by
  refine ⟨by decide, ?_, by decide, by decide, by decide⟩
  simp only [eq_iff_iff, iff_false]
  decide

/-- C6 (amended).  After every mutating client operation (Upload, Delete of
an existing path) the sync-back recorded is the restore.go plan: spawn
`replicate -config <yml>` (no `-once`) against the volume's
`gs://bucket/vol-meta` replica URL and wait a fixed 10 seconds; and a sync
failure never changes the operation's result (it is only logged as a
warning). -/
theorem syncBack_after_mutation (vol meta bucket : String) (c : ClientState)
    (path : String) (n : Nat) (recursive syncOk : Bool) :
    (syncViaLitestreamPlan vol meta bucket).args =
      ["replicate", "-config", goPathJoin (goPathDir meta) "litestream.yml"] ∧
    (syncViaLitestreamPlan vol meta bucket).replicaURL =
      "gs://" ++ bucket ++ "/" ++ vol ++ "-meta" ∧
    (syncViaLitestreamPlan vol meta bucket).waitSeconds = 10 ∧
    (clientUpload c path n true).1 = (clientUpload c path n false).1 ∧
    (clientDelete c path recursive true).1 = (clientDelete c path recursive false).1 ∧
    (∀ k c2, clientUpload c path n syncOk = (.ok k, c2) →
      c2.syncLog = c.syncLog ++ [(clientSyncPlan c, syncOk)]) ∧
    (∀ c2, clientDelete c path recursive syncOk = (.ok (), c2) →
      fsLookup c.fs path ≠ none →
      c2.syncLog = c.syncLog ++ [(clientSyncPlan c, syncOk)]) := by
  refine ⟨rfl, rfl, rfl, ?_, ?_, ?_, ?_⟩
  · unfold clientUpload
    by_cases hc : c.closed = true
    · simp [hc]
    · have hc' : c.closed = false := by
        cases h : c.closed with
        | false => rfl
        | true => exact absurd h hc
      simp only [hc', Bool.false_eq_true, if_false]
      cases hmk : uploadMkdirStep c.fs (goPathDir path) with
      | error e => rfl
      | ok fs1 =>
        cases hcr : uploadCreateStep fs1 path with
        | error e => simp [hcr]
        | ok fs2 => simp [hcr]
  · unfold clientDelete
    by_cases hc : c.closed = true
    · simp [hc]
    · have hc' : c.closed = false := by
        cases h : c.closed with
        | false => rfl
        | true => exact absurd h hc
      simp only [hc', Bool.false_eq_true, if_false]
      cases recursive with
      | true =>
        simp only [if_true]
        cases fsLookup c.fs path with
        | none => rfl
        | some node => rfl
      | false =>
        simp only [Bool.false_eq_true, if_false]
        cases fsLookup c.fs path with
        | none => rfl
        | some node =>
          cases node with
          | dir =>
            cases fsHasChild c.fs path with
            | true => rfl
            | false => rfl
          | file k => rfl
  · intro k c2 heq
    unfold clientUpload at heq
    by_cases hc : c.closed = true
    · simp [hc] at heq
    · have hc' : c.closed = false := by
        cases h : c.closed with
        | false => rfl
        | true => exact absurd h hc
      simp only [hc', Bool.false_eq_true, if_false] at heq
      cases hmk : uploadMkdirStep c.fs (goPathDir path) with
      | error e => rw [hmk] at heq; simp at heq
      | ok fs1 =>
        rw [hmk] at heq
        cases hcr : uploadCreateStep fs1 path with
        | error e => simp [hcr] at heq
        | ok fs2 =>
          simp only [hcr, Prod.mk.injEq] at heq
          obtain ⟨-, h2⟩ := heq
          subst h2
          rfl
  · intro c2 heq hpresent
    unfold clientDelete at heq
    by_cases hc : c.closed = true
    · simp [hc] at heq
    · have hc' : c.closed = false := by
        cases h : c.closed with
        | false => rfl
        | true => exact absurd h hc
      simp only [hc', Bool.false_eq_true, if_false] at heq
      cases recursive with
      | true =>
        simp only [if_true] at heq
        cases hl : fsLookup c.fs path with
        | none => exact absurd hl hpresent
        | some node =>
          simp only [hl, Prod.mk.injEq] at heq
          obtain ⟨-, h2⟩ := heq
          subst h2
          rfl
      | false =>
        simp only [Bool.false_eq_true, if_false] at heq
        cases hl : fsLookup c.fs path with
        | none => exact absurd hl hpresent
        | some node =>
          cases node with
          | dir =>
            cases hch : fsHasChild c.fs path with
            | true => simp [hl, hch] at heq
            | false =>
              simp only [hl, hch, Bool.false_eq_true, if_false, Prod.mk.injEq] at heq
              obtain ⟨-, h2⟩ := heq
              subst h2
              rfl
          | file k =>
            simp only [hl, Prod.mk.injEq] at heq
            obtain ⟨-, h2⟩ := heq
            subst h2
            rfl

/-- C6 (amended, witness): a concrete upload through an open client
records exactly one sync-back invocation with the restore.go plan. -/
theorem syncBack_after_mutation_witness :
    (clientUpload ⟨⟨"vol_1", "bkt", "/tmp/x/meta.db"⟩, false, [("/f", .file 1)], 0, []⟩
        "/f" 3 true).2.syncLog =
      [(clientSyncPlan ⟨⟨"vol_1", "bkt", "/tmp/x/meta.db"⟩, false, [("/f", .file 1)], 0, []⟩,
        true)] := by
  obtain ⟨-, -, -, -, -, hu, -⟩ := syncBack_after_mutation "vol_1" "/tmp/x/meta.db" "bkt"
    ⟨⟨"vol_1", "bkt", "/tmp/x/meta.db"⟩, false, [("/f", .file 1)], 0, []⟩ "/f" 3 false true
  exact hu 3
    (clientUpload ⟨⟨"vol_1", "bkt", "/tmp/x/meta.db"⟩, false, [("/f", .file 1)], 0, []⟩
      "/f" 3 true).2 rfl

/-- C7.  Processing `sandbox.killed` updates every ledger row carrying the
event's sandbox id to `status = "stopped"`, with `end_reason` the string
carried in `event_data` (or `"killed"` when absent) and `ended_at` the
current time — so on the updated row `end_reason` is non-null exactly when
`status = "stopped"`. -/
theorem handleKilled_updates_row (db : List SandboxRunRow) (ev : SandboxEvent) (now : Nat)
    (r : SandboxRunRow)
    (hr : r ∈ handleKilled db ev now) (hid : r.sandboxID = ev.sandboxID) :
    r.status = "stopped" ∧
    r.endReason = some (killedEndReason ev) ∧
    r.endedAt = some now ∧
    r.updatedAt = now ∧
    (r.endReason ≠ none ↔ r.status = "stopped") ∧
    (eventDataStr ev.eventData "end_reason" = none → killedEndReason ev = "killed") ∧
    (∀ s, eventDataStr ev.eventData "end_reason" = some s → s ≠ "" →
      killedEndReason ev = s) := by
  unfold handleKilled endSandboxRun at hr
  obtain ⟨x, hx, hfx⟩ := List.mem_map.mp hr
  unfold endRunUpd at hfx
  by_cases hbx : (x.sandboxID == ev.sandboxID) = true
  · rw [if_pos hbx] at hfx
    subst hfx
    refine ⟨rfl, rfl, rfl, rfl, by simp, ?_, ?_⟩
    · intro hnone
      unfold killedEndReason
      rw [hnone]
    · intro s hs hne
      unfold killedEndReason
      rw [hs]
      simp [hne]
  · rw [if_neg hbx] at hfx
    subst hfx
    exact absurd (beq_iff_eq.mpr hid) hbx

/-- C7 (witness): a killed event carrying `end_reason = "timeout"` stops
the matching row with that reason. -/
theorem handleKilled_updates_row_witness :
    handleKilled [⟨"sbx1", "running", none, none, 0⟩]
      ⟨"sbx1", [("end_reason", .str "timeout")]⟩ 5 =
      [⟨"sbx1", "stopped", some "timeout", some 5, 5⟩] ∧
    (⟨"sbx1", "stopped", some "timeout", some 5, 5⟩ : SandboxRunRow).endReason =
      some (killedEndReason ⟨"sbx1", [("end_reason", .str "timeout")]⟩) := by
  refine ⟨by decide, ?_⟩
  exact (handleKilled_updates_row [⟨"sbx1", "running", none, none, 0⟩]
    ⟨"sbx1", [("end_reason", .str "timeout")]⟩ 5
    ⟨"sbx1", "stopped", some "timeout", some 5, 5⟩ (by decide) (by decide)).2.1

/-- C8.  Every operation on a closed client is rejected with the
"client closed" error and leaves the client state — filesystem, sync log
and cleanup count included — untouched; `Close` on a closed client returns
nil without repeating cleanup, and `Close` always leaves the client
closed. -/
theorem closedClient_ops_rejected (c c0 : ClientState) (p : String)
    (limit offset n : Nat) (recursive syncOk : Bool)
    (h : c.closed = true) :
    clientListDir c p limit offset = (.error .clientClosed, c) ∧
    clientDownload c p = (.error .clientClosed, c) ∧
    clientUpload c p n syncOk = (.error .clientClosed, c) ∧
    clientDelete c p recursive syncOk = (.error .clientClosed, c) ∧
    clientClose c = (none, c) ∧
    ((clientClose c0).2).closed = true ∧
    clientClose ((clientClose c0).2) = (none, (clientClose c0).2) := by
  refine ⟨?_, ?_, ?_, ?_, ?_, ?_, ?_⟩
  · unfold clientListDir; rw [h]; rfl
  · unfold clientDownload; rw [h]; rfl
  · unfold clientUpload; rw [h]; rfl
  · unfold clientDelete; rw [h]; rfl
  · unfold clientClose; rw [h]; rfl
  · by_cases hc0 : c0.closed = true
    · unfold clientClose; rw [hc0]; simpa using hc0
    · have hc0' : c0.closed = false := by
        cases hh : c0.closed with
        | false => rfl
        | true => exact absurd hh hc0
      unfold clientClose
      rw [hc0']
      rfl
  · by_cases hc0 : c0.closed = true
    · unfold clientClose; rw [hc0]; simp [hc0]
    · have hc0' : c0.closed = false := by
        cases hh : c0.closed with
        | false => rfl
        | true => exact absurd hh hc0
      unfold clientClose
      rw [hc0']
      rfl

/-- C8 (witness): one closed client rejects each operation, and closing an
open client twice does nothing the second time. -/
theorem closedClient_ops_rejected_witness :
    clientListDir ⟨⟨"v", "b", "/m"⟩, true, [], 1, []⟩ "/" 0 0 =
      (.error .clientClosed, ⟨⟨"v", "b", "/m"⟩, true, [], 1, []⟩) ∧
    clientUpload ⟨⟨"v", "b", "/m"⟩, true, [], 1, []⟩ "/f" 3 true =
      (.error .clientClosed, ⟨⟨"v", "b", "/m"⟩, true, [], 1, []⟩) ∧
    clientClose ((clientClose ⟨⟨"v", "b", "/m"⟩, false, [], 0, []⟩).2) =
      (none, (clientClose ⟨⟨"v", "b", "/m"⟩, false, [], 0, []⟩).2) := by
  obtain ⟨h1, -, h3, -, -, -, h7⟩ := closedClient_ops_rejected
    ⟨⟨"v", "b", "/m"⟩, true, [], 1, []⟩ ⟨⟨"v", "b", "/m"⟩, false, [], 0, []⟩
    "/" 0 0 0 true true rfl
  exact ⟨h1, by
    obtain ⟨-, -, h3b, -⟩ := closedClient_ops_rejected
      ⟨⟨"v", "b", "/m"⟩, true, [], 1, []⟩ ⟨⟨"v", "b", "/m"⟩, false, [], 0, []⟩
      "/f" 0 0 3 true true rfl
    exact h3b, h7⟩

/-- C9.  Deleting an absent path succeeds: the client swallows `ENOENT`
for both recursive and non-recursive deletion, leaving the state (and the
sync log) untouched, and the HTTP DELETE files endpoint answers 204 No
Content. -/
theorem deleteAbsentPath_success (db : List VolumeRow) (teamID : Nat) (volID : String)
    (v : VolumeRow) (c : ClientState) (pathParam : String) (recursiveParam : Option Bool)
    (syncOk : Bool)
    (hres : resolveVolumeByID db teamID volID = some v)
    (hopen : c.closed = false)
    (habs : goHasPrefix pathParam "/" = true)
    (hmissing : fsLookup c.fs (goClean pathParam) = none) :
    clientDelete c (goClean pathParam) (recursiveParam.getD false) syncOk = (.ok (), c) ∧
    deleteVolumesFilesHandler db teamID volID true pathParam recursiveParam c syncOk =
      (204, c) := by
  have h1 : clientDelete c (goClean pathParam) (recursiveParam.getD false) syncOk =
      (.ok (), c) := by
    unfold clientDelete
    simp only [hopen, Bool.false_eq_true, if_false]
    cases hrec : recursiveParam.getD false with
    | true => simp [hmissing]
    | false => simp [hmissing]
  refine ⟨h1, ?_⟩
  unfold deleteVolumesFilesHandler
  rw [hres]
  simp only [habs]
  simp only [h1]
  rfl

/-- C9 (witness): deleting `/gone` from an empty volume answers 204. -/
theorem deleteAbsentPath_success_witness :
    clientDelete ⟨⟨"vol_1", "bkt", "/m"⟩, false, [], 0, []⟩ (goClean "/gone")
      ((some true).getD false) true = (.ok (), ⟨⟨"vol_1", "bkt", "/m"⟩, false, [], 0, []⟩) ∧
    deleteVolumesFilesHandler [⟨"vol_1", 3, "foo", "available"⟩] 3 "vol_1" true "/gone"
      (some true) ⟨⟨"vol_1", "bkt", "/m"⟩, false, [], 0, []⟩ true =
      (204, ⟨⟨"vol_1", "bkt", "/m"⟩, false, [], 0, []⟩) := by
  exact deleteAbsentPath_success [⟨"vol_1", 3, "foo", "available"⟩] 3 "vol_1"
    ⟨"vol_1", 3, "foo", "available"⟩ ⟨⟨"vol_1", "bkt", "/m"⟩, false, [], 0, []⟩
    "/gone" (some true) true (by decide) rfl (by decide) (by decide)

/-- Lookup after insert: the inserted key maps to the new node, all other
keys are unchanged. -/
theorem fsLookup_fsInsert (fs : FS) (p q : String) (n : FNode) :
    fsLookup (fsInsert fs p n) q = if q = p then some n else fsLookup fs q := by
  induction fs with
  | nil =>
    by_cases h : q = p
    · subst h; simp [fsInsert, fsLookup]
    · have h' : ¬p = q := fun hh => h hh.symm
      simp [fsInsert, fsLookup, h, h']
  | cons e rest ih =>
    unfold fsInsert
    by_cases he : e.1 = p
    · rw [if_pos he]
      by_cases hq : q = p
      · subst hq; simp [fsLookup]
      · have h1 : ¬p = q := fun hh => hq hh.symm
        have h2 : ¬e.1 = q := fun hh => hq (hh.symm.trans he)
        simp [fsLookup, h1, h2, hq]
    · rw [if_neg he]
      unfold fsLookup
      by_cases hq2 : e.1 = q
      · have h1 : ¬q = p := fun hh => he (hq2.symm ▸ hh : e.1 = p)
        simp [hq2, h1]
      · simp [hq2, ih]

/-- C10.  A PUT upload with a nil or zero-length body succeeds: parent
directories are created as needed, the target is created or truncated to
an empty file, and the endpoint answers 201 Created with size 0; the
post-mutation sync-back is recorded. -/
theorem uploadEmptyBody_created (db : List VolumeRow) (teamID : Nat) (volID : String)
    (v : VolumeRow) (c : ClientState) (pathParam : String) (bodyLen : Option Nat)
    (syncOk : Bool) (fs1 : FS)
    (hres : resolveVolumeByID db teamID volID = some v)
    (hopen : c.closed = false)
    (habs : goHasPrefix pathParam "/" = true)
    (hbody : bodyLen = none ∨ bodyLen = some 0)
    (hmk : uploadMkdirStep c.fs (goPathDir (goClean pathParam)) = .ok fs1)
    (hnd : fsLookup fs1 (goClean pathParam) ≠ some FNode.dir)
    (hpd : fsLookup fs1 (goClean pathParam) = none →
      isDirIn fs1 (goPathDir (goClean pathParam)) = true) :
    (putVolumesFilesUploadHandler db teamID volID true pathParam bodyLen c syncOk).1 =
      (201, some (goClean pathParam), some 0) ∧
    fsLookup
      (putVolumesFilesUploadHandler db teamID volID true pathParam bodyLen c syncOk).2.fs
      (goClean pathParam) = some (.file 0) ∧
    (putVolumesFilesUploadHandler db teamID volID true pathParam bodyLen c syncOk).2.syncLog =
      c.syncLog ++ [(clientSyncPlan c, syncOk)] := by
  have hlen : bodyLen.getD 0 = 0 := by rcases hbody with h | h <;> rw [h] <;> rfl
  have hcr : uploadCreateStep fs1 (goClean pathParam) =
      .ok (fsInsert fs1 (goClean pathParam) (.file 0)) := by
    unfold uploadCreateStep
    cases hl : fsLookup fs1 (goClean pathParam) with
    | none => simp [hpd hl]
    | some node =>
      cases node with
      | dir => exact absurd hl hnd
      | file k => rfl
  have hup : clientUpload c (goClean pathParam) 0 syncOk =
      (.ok 0,
        { c with
            fs := fsInsert (fsInsert fs1 (goClean pathParam) (.file 0)) (goClean pathParam)
              (.file 0),
            syncLog := c.syncLog ++ [(clientSyncPlan c, syncOk)] }) := by
    unfold clientUpload
    simp only [hopen, Bool.false_eq_true, if_false, hmk, hcr]
  have hh : putVolumesFilesUploadHandler db teamID volID true pathParam bodyLen c syncOk =
      ((201, some (goClean pathParam), some 0),
        { c with
            fs := fsInsert (fsInsert fs1 (goClean pathParam) (.file 0)) (goClean pathParam)
              (.file 0),
            syncLog := c.syncLog ++ [(clientSyncPlan c, syncOk)] }) := by
    unfold putVolumesFilesUploadHandler
    rw [hres]
    simp only [habs, hlen, hup]
    rfl
  rw [hh]
  refine ⟨rfl, ?_, rfl⟩
  rw [fsLookup_fsInsert]
  simp

/-- C10 (witness): uploading to `/a/b` with an absent body on an empty
volume creates the parent directory and an empty file, answering 201 with
size 0. -/
theorem uploadEmptyBody_created_witness :
    (putVolumesFilesUploadHandler [⟨"vol_1", 3, "foo", "available"⟩] 3 "vol_1" true "/a/b"
      none ⟨⟨"vol_1", "bkt", "/m"⟩, false, [], 0, []⟩ true).1 =
      (201, some (goClean "/a/b"), some 0) ∧
    fsLookup
      (putVolumesFilesUploadHandler [⟨"vol_1", 3, "foo", "available"⟩] 3 "vol_1" true "/a/b"
        none ⟨⟨"vol_1", "bkt", "/m"⟩, false, [], 0, []⟩ true).2.fs
      (goClean "/a/b") = some (.file 0) := by
  have h := uploadEmptyBody_created [⟨"vol_1", 3, "foo", "available"⟩] 3 "vol_1"
    ⟨"vol_1", 3, "foo", "available"⟩ ⟨⟨"vol_1", "bkt", "/m"⟩, false, [], 0, []⟩
    "/a/b" none true [("/a", FNode.dir)] (by decide) rfl (by decide) (Or.inl rfl)
    rfl (by decide) (fun _ => by decide)
  exact ⟨h.1, h.2.1⟩
